import Mathlib

/-!
Verification of the Carloop fault code reader application
(`src/app-code-reader.cpp`) together with the diagnostic engine it
drives (`CodeReader`, `CodeClearer`, the DTC decoder and the Diagnostic
Session), which the application consumes through external headers.  The
host side functions (`publishCodes`, `processSerial`,
`processReadingCodes`, `processClearingCodes`) are embedded directly
from the C++ source; the engine components, whose code is not part of
the repository, are modelled from the specification.
-/

namespace CarloopApp

/-- Status of a diagnostic trouble code as used by `publishCodes`
(`DTC::STORED_DTC`, `DTC::PENDING_DTC`, `DTC::CLEARED_DTC`). -/
inductive DTCType
  | STORED_DTC
  | PENDING_DTC
  | CLEARED_DTC
  deriving DecidableEq

/-- A diagnostic trouble code as consumed by `publishCodes`: the
category letter, the numeric value (a 14 bit identifier held in a 16 bit
field and printed with `%04X`) and the status.  The field layout follows
the use in `app-code-reader.cpp`; the numeric range follows the data
model of the specification. -/
structure DTC where
  letter : Char
  code : Nat
  type : DTCType
  deriving DecidableEq

/-- The Particle cloud events published by the application. -/
inductive Event
  | codesStart
  | codesClear
  | codesError
  | codesResult (payload : String)
  | codesCleared
  deriving DecidableEq

/-- Uppercase hexadecimal digit character, as produced by `%X`. -/
def hexDigitChar (d : Nat) : Char :=
  if d < 10 then Char.ofNat (48 + d) else Char.ofNat (55 + d)

/-- Minimal uppercase hexadecimal digits of `n`, most significant digit
first; `fuel` bounds the recursion depth.  This is the digit expansion
performed by C `%X`. -/
def hexRep : Nat → Nat → List Char
  | 0, _ => []
  | fuel + 1, n =>
    if n < 16 then [hexDigitChar n] else hexRep fuel (n / 16) ++ [hexDigitChar (n % 16)]

/-- All hexadecimal digits of `n`, most significant digit first. -/
def toHexMinimal (n : Nat) : List Char :=
  hexRep (n + 1) n

/-- Embedding of `String::format("%04X", n)`: the hexadecimal digits of
`n` in uppercase, zero padded on the left to at least four characters. -/
def format04X (n : Nat) : String :=
  String.mk (List.replicate (4 - (toHexMinimal n).length) '0' ++ toHexMinimal n)

/-- The one letter status suffix appended to each code by
`publishCodes`: `s` for stored, `p` for pending, `c` for cleared. -/
def statusSuffix : DTCType → Char
  | DTCType.STORED_DTC => 's'
  | DTCType.PENDING_DTC => 'p'
  | DTCType.CLEARED_DTC => 'c'

/-- Embedding of the `codeStr` value built for one code inside the loop
of `publishCodes` (lines 134 to 154 of `app-code-reader.cpp`): the
category letter, the `%04X` rendering of the numeric value, and the
status suffix. -/
def codeStr (c : DTC) : String :=
  String.mk [c.letter] ++ format04X c.code ++ String.mk [statusSuffix c.type]

/-- Embedding of the result accumulation loop of `publishCodes`
(lines 132 to 162): codes are appended in order and a comma is inserted
whenever the accumulator is already non empty. -/
def publishResultString (codes : List DTC) : String :=
  codes.foldl (fun result c => (if result.length > 0 then result ++ "," else result) ++ codeStr c) ""

/-- Comma prefixed rendering of a list of codes, used to relate the
accumulator loop of `publishCodes` to the specification rendering. -/
def codeTail : List DTC → String
  | [] => ""
  | c :: cs => "," ++ codeStr c ++ codeTail cs

/-- Embedding of `publishCodes` (lines 115 to 167): when the reader
reports an error the `codes/error` event is published (when the cloud is
connected) and the function returns early; otherwise the rendered result
string is published as the `codes/result` event. -/
def publishCodes (connected : Bool) (error : Bool) (codes : List DTC) : List Event :=
  if error then
    if connected then [Event.codesError] else []
  else
    if connected then [Event.codesResult (publishResultString codes)] else []

/-- Embedding of the body of `processReadingCodes` (lines 102 to 111)
after the `reader.process()` step, given the polled value of
`reader.done()` and the one step memory `previouslyDone`.  The first
component is `some events` exactly when `publishCodes` is invoked, and
the second component is the value stored back into `previouslyDone`. -/
def processReadingCodes (connected error : Bool) (codes : List DTC)
    (readerDone previouslyDone : Bool) : Option (List Event) × Bool :=
  (if readerDone && !previouslyDone then some (publishCodes connected error codes) else none,
    readerDone)

/-- Embedding of the body of `processClearingCodes` (lines 170 to 189)
after the `clearer.process()` step, given the polled values of
`clearer.done()` and `clearer.getError()` and the one step memory
`previouslyDone`.  The first component lists the published events and
the second component is the value stored back into `previouslyDone`. -/
def processClearingCodes (connected clearerDone clearerError previouslyDone : Bool) :
    List Event × Bool :=
  (if clearerDone && !previouslyDone then
      if clearerError then (if connected then [Event.codesError] else [])
      else (if connected then [Event.codesCleared] else [])
    else [], clearerDone)

/-- Initial value of both `static bool previouslyDone` variables in
`app-code-reader.cpp` (lines 105 and 173). -/
def initialPreviouslyDone : Bool :=
  true

/-- Rising edge detection following the words of the specification
(section 9): an iteration notifies exactly when the current polled value
is true and the one step memory of the previous value is false. -/
def edgeRun : Bool → List Bool → List Bool
  | _, [] => []
  | prev, d :: ds => (d && !prev) :: edgeRun d ds

/-- Iterating `processReadingCodes` over successive polled values of
`reader.done()`, recording in which iterations `publishCodes` is
invoked. -/
def readerLoop (connected error : Bool) (codes : List DTC) : Bool → List Bool → List Bool
  | _, [] => []
  | prev, d :: ds =>
    (processReadingCodes connected error codes d prev).1.isSome ::
      readerLoop connected error codes (processReadingCodes connected error codes d prev).2 ds

/-- Iterating `processClearingCodes` over successive polled values of
`clearer.done()`, recording the events published in each iteration. -/
def clearerLoop (connected clearerError : Bool) : Bool → List Bool → List (List Event)
  | _, [] => []
  | prev, d :: ds =>
    (processClearingCodes connected d clearerError prev).1 ::
      clearerLoop connected clearerError (processClearingCodes connected d clearerError prev).2 ds

/-- The action selected by the `switch` in `processSerial` (lines 89 to
99): start the reader, start the clearer, or nothing. -/
inductive SerialAction
  | startReader
  | startClearer
  | noop
  deriving DecidableEq

/-- Embedding of `processSerial` (lines 89 to 99): the byte returned by
`Serial.read()` (an `Int`, `-1` when no data is available) selects which
operation is started; `r` starts the code reader, `c` starts the code
clearer, anything else does nothing. -/
def processSerial (b : Int) : SerialAction :=
  if b = (Char.toNat 'r' : Int) then SerialAction.startReader
  else if b = (Char.toNat 'c' : Int) then SerialAction.startClearer
  else SerialAction.noop

/-- Exactly four uppercase hexadecimal digits of `n`, following the
words of the specification (section 6, wire format). -/
def specHex4 (n : Nat) : String :=
  String.mk [hexDigitChar (n / 4096 % 16), hexDigitChar (n / 256 % 16),
    hexDigitChar (n / 16 % 16), hexDigitChar (n % 16)]

/-- One code rendered following the words of the specification: the
category letter, four uppercase hexadecimal digits, the status
suffix. -/
def specRenderCode (c : DTC) : String :=
  String.mk [c.letter] ++ specHex4 c.code ++ String.mk [statusSuffix c.type]

/-- A result sequence rendered following the words of the
specification: codes joined by a single comma with no trailing
separator, the empty sequence rendered as the empty string. -/
def specRender : List DTC → String
  | [] => ""
  | [c] => specRenderCode c
  | c :: c2 :: cs => specRenderCode c ++ "," ++ specRender (c2 :: cs)

/-- The codes of the Code Reader scenario of the specification. -/
def exampleCodes : List DTC :=
  [⟨'P', 0x0415, DTCType.STORED_DTC⟩, ⟨'P', 0x0010, DTCType.PENDING_DTC⟩,
    ⟨'U', 0x0300, DTCType.CLEARED_DTC⟩]

/-- Modelled from the spec: the category letter selected by the top two
bits of a DTC record (section 4.4 together with the closed enumeration
Powertrain, Chassis, Body, Network of section 9). -/
def categoryLetter (bits : Nat) : Char :=
  if bits % 4 = 0 then 'P'
  else if bits % 4 = 1 then 'C'
  else if bits % 4 = 2 then 'B'
  else 'U'

/-- Modelled from the spec: the DTC Decoder (section 4.4), whose code is
not part of the repository sources.  A pure function from payload bytes
to trouble codes given the status to assign: codes are packed as fixed
width two byte records; the top two bits of a record select the category
letter and the remaining fourteen bits form the numeric value; an all
zero record is padding and is skipped; a truncated trailing byte is
ignored rather than treated as a fatal decode error. -/
def decodeDTCs (status : DTCType) : List Nat → List DTC
  | b1 :: b2 :: rest =>
    let record := b1 % 256 * 256 + b2 % 256
    if record = 0 then decodeDTCs status rest
    else ⟨categoryLetter (record / 16384), record % 16384, status⟩ :: decodeDTCs status rest
  | _ => []

/-- Modelled from the spec: the states of the Diagnostic Session state
machine (section 4.3). -/
inductive SessionState
  | Idle
  | RequestSent
  | AwaitingResponse
  | Complete
  | Failed
  deriving DecidableEq

/-- Modelled from the spec: a Diagnostic Request (section 3). -/
structure DiagnosticRequest where
  serviceId : Nat
  subParam : Option Nat
  issuedAt : Nat
  deriving DecidableEq

/-- Modelled from the spec: a Diagnostic Response (section 3). -/
structure DiagnosticResponse where
  serviceIdEcho : Nat
  payload : List Nat
  negativeResponse : Bool
  deriving DecidableEq

/-- Modelled from the spec: the Diagnostic Session (section 4.3), whose
code is not part of the repository sources.  It owns at most one
outstanding request. -/
structure Session where
  state : SessionState
  outstanding : Option DiagnosticRequest
  response : Option DiagnosticResponse
  deriving DecidableEq

/-- Modelled from the spec: `issue(request)` (section 4.3) is only legal
from `Idle`; it hands the request over, records it and moves to
`RequestSent`; a second `issue` while the session is not `Idle` is
rejected and changes nothing.  The boolean reports acceptance. -/
def Session.issue (s : Session) (req : DiagnosticRequest) : Session × Bool :=
  match s.state with
  | SessionState.Idle => (⟨SessionState.RequestSent, some req, none⟩, true)
  | _ => (s, false)

/-- Modelled from the spec: the outcome a client observes when polling
its Diagnostic Session (section 4.3): still pending, complete with a
response payload and the negative response flag, or failed (timeout or
transport failure). -/
inductive SessionOutcome
  | pending
  | complete (payload : List Nat) (negative : Bool)
  | failed
  deriving DecidableEq

/-- Modelled from the spec: the states of the Code Reader state machine
(section 4.5). -/
inductive ReaderState
  | Idle
  | ReadingStored
  | ReadingPending
  | ReadingCleared
  | Done
  | Error
  deriving DecidableEq

/-- Modelled from the spec: the Code Reader engine (section 4.5), whose
code is not part of the repository sources. -/
structure CodeReader where
  state : ReaderState
  codes : List DTC
  deriving DecidableEq

/-- Modelled from the spec: `start()` clears the prior result set,
issues the stored codes request and moves to `ReadingStored`
(section 4.5). -/
def CodeReader.start (_ : CodeReader) : CodeReader :=
  ⟨ReaderState.ReadingStored, []⟩

/-- Modelled from the spec: one `process()` step of the Code Reader
(section 4.5), driven by the outcome of the active session.  On
`complete` the payload is decoded with the status of the current phase
and appended, and the next phase request is issued; a negative response
to a read service means no codes of this type (section 4.3); on
`failed` the reader records the error and moves to `Error`, discarding
partial results; terminal states are absorbing. -/
def CodeReader.process (r : CodeReader) (o : SessionOutcome) : CodeReader :=
  match r.state with
  | ReaderState.ReadingStored =>
    match o with
    | SessionOutcome.pending => r
    | SessionOutcome.complete payload negative =>
      ⟨ReaderState.ReadingPending,
        r.codes ++ if negative then [] else decodeDTCs DTCType.STORED_DTC payload⟩
    | SessionOutcome.failed => ⟨ReaderState.Error, []⟩
  | ReaderState.ReadingPending =>
    match o with
    | SessionOutcome.pending => r
    | SessionOutcome.complete payload negative =>
      ⟨ReaderState.ReadingCleared,
        r.codes ++ if negative then [] else decodeDTCs DTCType.PENDING_DTC payload⟩
    | SessionOutcome.failed => ⟨ReaderState.Error, []⟩
  | ReaderState.ReadingCleared =>
    match o with
    | SessionOutcome.pending => r
    | SessionOutcome.complete payload negative =>
      ⟨ReaderState.Done,
        r.codes ++ if negative then [] else decodeDTCs DTCType.CLEARED_DTC payload⟩
    | SessionOutcome.failed => ⟨ReaderState.Error, []⟩
  | _ => r

/-- Modelled from the spec: `done()` is true in `Done` or `Error`
(section 4.5). -/
def CodeReader.done (r : CodeReader) : Bool :=
  match r.state with
  | ReaderState.Done => true
  | ReaderState.Error => true
  | _ => false

/-- Modelled from the spec: `getError()` is true only in `Error`
(section 4.5). -/
def CodeReader.getError (r : CodeReader) : Bool :=
  match r.state with
  | ReaderState.Error => true
  | _ => false

/-- Modelled from the spec: `getCodes()` is valid only in `Done`, where
it returns the accumulated result set in phase order; in every other
state, in particular on error, the exposed result set is empty
(sections 3 and 4.5). -/
def CodeReader.getCodes (r : CodeReader) : List DTC :=
  match r.state with
  | ReaderState.Done => r.codes
  | _ => []

/-- Modelled from the spec: the states of the Code Clearer state machine
(section 4.6).  A failed clear is the `Error` state; `done()` is true in
both terminal states. -/
inductive ClearerState
  | Idle
  | ClearRequested
  | Done
  | Error
  deriving DecidableEq

/-- Modelled from the spec: the Code Clearer engine (section 4.6), whose
code is not part of the repository sources. -/
structure CodeClearer where
  state : ClearerState
  deriving DecidableEq

/-- Modelled from the spec: `start()` issues the clear DTC service
request (section 4.6). -/
def CodeClearer.start (_ : CodeClearer) : CodeClearer :=
  ⟨ClearerState.ClearRequested⟩

/-- Modelled from the spec: one `process()` step of the Code Clearer
(section 4.6): a positive response moves to `Done`, a negative response
or a timeout moves to `Error`; terminal states are absorbing. -/
def CodeClearer.process (c : CodeClearer) (o : SessionOutcome) : CodeClearer :=
  match c.state with
  | ClearerState.ClearRequested =>
    match o with
    | SessionOutcome.pending => c
    | SessionOutcome.complete _ negative =>
      if negative then ⟨ClearerState.Error⟩ else ⟨ClearerState.Done⟩
    | SessionOutcome.failed => ⟨ClearerState.Error⟩
  | _ => c

/-- Modelled from the spec: `done()` of the Code Clearer is true in both
terminal states (section 4.6). -/
def CodeClearer.done (c : CodeClearer) : Bool :=
  match c.state with
  | ClearerState.Done => true
  | ClearerState.Error => true
  | _ => false

/-- Modelled from the spec: `getError()` of the Code Clearer is true
exactly when clearing failed (section 4.6). -/
def CodeClearer.getError (c : CodeClearer) : Bool :=
  match c.state with
  | ClearerState.Error => true
  | _ => false

/-- The effect of one `processSerial` step on the reader and the
clearer: `readCodes` calls `reader.start()`, `clearCodes` calls
`clearer.start()`, and any other byte touches neither. -/
def applySerial (b : Int) (r : CodeReader) (c : CodeClearer) : CodeReader × CodeClearer :=
  match processSerial b with
  | SerialAction.startReader => (CodeReader.start r, c)
  | SerialAction.startClearer => (r, CodeClearer.start c)
  | SerialAction.noop => (r, c)

theorem hexRep_lt (fuel n : Nat) (hf : fuel ≠ 0) (h : n < 16) :
    hexRep fuel n = [hexDigitChar n] := by
  cases fuel with
  | zero => exact absurd rfl hf
  | succ f => simp [hexRep, h]

theorem hexRep_ge (fuel n : Nat) (h : ¬ n < 16) :
    hexRep (fuel + 1) n = hexRep fuel (n / 16) ++ [hexDigitChar (n % 16)] := by
  simp [hexRep, h]

theorem toHexMinimal_one (n : Nat) (h : n < 16) :
    toHexMinimal n = [hexDigitChar n] := by
  unfold toHexMinimal
  exact hexRep_lt (n + 1) n (by omega) h

theorem toHexMinimal_two (n : Nat) (h16 : 16 ≤ n) (h : n < 256) :
    toHexMinimal n = [hexDigitChar (n / 16), hexDigitChar (n % 16)] := by
  unfold toHexMinimal
  rw [hexRep_ge n n (by omega), hexRep_lt n (n / 16) (by omega) (by omega)]
  rfl

theorem toHexMinimal_three (n : Nat) (h256 : 256 ≤ n) (h : n < 4096) :
    toHexMinimal n = [hexDigitChar (n / 256), hexDigitChar (n / 16 % 16), hexDigitChar (n % 16)] := by
  obtain ⟨m, rfl⟩ : ∃ m, n = m + 1 := ⟨n - 1, by omega⟩
  unfold toHexMinimal
  rw [hexRep_ge (m + 1) (m + 1) (by omega), hexRep_ge m ((m + 1) / 16) (by omega),
    hexRep_lt m ((m + 1) / 16 / 16) (by omega) (by omega)]
  simp only [Nat.div_div_eq_div_mul]
  norm_num

theorem toHexMinimal_four (n : Nat) (h4096 : 4096 ≤ n) (h : n < 65536) :
    toHexMinimal n = [hexDigitChar (n / 4096), hexDigitChar (n / 256 % 16),
      hexDigitChar (n / 16 % 16), hexDigitChar (n % 16)] := by
  obtain ⟨m, rfl⟩ : ∃ m, n = m + 2 := ⟨n - 2, by omega⟩
  unfold toHexMinimal
  rw [hexRep_ge (m + 2) (m + 2) (by omega), hexRep_ge (m + 1) ((m + 2) / 16) (by omega),
    hexRep_ge m ((m + 2) / 16 / 16) (by omega),
    hexRep_lt m ((m + 2) / 16 / 16 / 16) (by omega) (by omega)]
  simp only [Nat.div_div_eq_div_mul]
  norm_num

theorem format04X_eq_specHex4 (n : Nat) (h : n < 65536) : format04X n = specHex4 n := by
  have hc0 : hexDigitChar 0 = '0' := by decide
  rcases Nat.lt_or_ge n 16 with h1 | h1
  · unfold format04X specHex4
    rw [toHexMinimal_one n h1]
    have e1 : n / 4096 % 16 = 0 := by omega
    have e2 : n / 256 % 16 = 0 := by omega
    have e3 : n / 16 % 16 = 0 := by omega
    have e4 : n % 16 = n := by omega
    rw [e1, e2, e3, e4, hc0]
    rfl
  rcases Nat.lt_or_ge n 256 with h2 | h2
  · unfold format04X specHex4
    rw [toHexMinimal_two n h1 h2]
    have e1 : n / 4096 % 16 = 0 := by omega
    have e2 : n / 256 % 16 = 0 := by omega
    have e3 : n / 16 % 16 = n / 16 := by omega
    rw [e1, e2, e3, hc0]
    rfl
  rcases Nat.lt_or_ge n 4096 with h3 | h3
  · unfold format04X specHex4
    rw [toHexMinimal_three n h2 h3]
    have e1 : n / 4096 % 16 = 0 := by omega
    have e2 : n / 256 % 16 = n / 256 := by omega
    rw [e1, e2, hc0]
    rfl
  · unfold format04X specHex4
    rw [toHexMinimal_four n h3 h]
    have e1 : n / 4096 % 16 = n / 4096 := by omega
    rw [e1]
    rfl

theorem codeStr_eq_specRenderCode (c : DTC) (h : c.code < 65536) :
    codeStr c = specRenderCode c := by
  unfold codeStr specRenderCode
  rw [format04X_eq_specHex4 c.code h]

theorem codeStr_length_pos (c : DTC) : 0 < (codeStr c).length := by
  unfold codeStr
  rw [String.length_append, String.length_append]
  have h1 : (String.mk [c.letter]).length = 1 := rfl
  omega

theorem foldl_publish (cs : List DTC) : ∀ acc : String, 0 < acc.length →
    cs.foldl (fun result c => (if result.length > 0 then result ++ "," else result) ++ codeStr c) acc
      = acc ++ codeTail cs := by
  induction cs with
  | nil =>
    intro acc _
    simp [codeTail, String.append_empty]
  | cons c cs ih =>
    intro acc h
    rw [List.foldl_cons, if_pos h]
    have hlen : 0 < ((acc ++ ",") ++ codeStr c).length := by
      rw [String.length_append, String.length_append]
      omega
    rw [ih _ hlen]
    show acc ++ "," ++ codeStr c ++ codeTail cs = acc ++ codeTail (c :: cs)
    simp only [codeTail]
    rw [String.append_assoc, String.append_assoc, String.append_assoc]

theorem specRender_cons : ∀ (cs : List DTC) (c : DTC), (∀ x ∈ c :: cs, x.code < 65536) →
    specRender (c :: cs) = codeStr c ++ codeTail cs := by
  intro cs
  induction cs with
  | nil =>
    intro c h
    have e : specRender [c] = specRenderCode c := rfl
    have e2 : codeTail [] = "" := rfl
    rw [e, e2, String.append_empty, codeStr_eq_specRenderCode c (h c (List.mem_cons_self c _))]
  | cons c2 cs ih =>
    intro c h
    have e : specRender (c :: c2 :: cs) = specRenderCode c ++ "," ++ specRender (c2 :: cs) := rfl
    have e2 : codeTail (c2 :: cs) = "," ++ codeStr c2 ++ codeTail cs := rfl
    rw [e, e2, ih c2 (fun x hx => h x (List.mem_cons_of_mem c hx)),
      codeStr_eq_specRenderCode c (h c (List.mem_cons_self c _))]
    rw [String.append_assoc, String.append_assoc]

theorem publishResultString_eq_specRender (cs : List DTC) (h : ∀ c ∈ cs, c.code < 65536) :
    publishResultString cs = specRender cs := by
  cases cs with
  | nil => rfl
  | cons c cs =>
    unfold publishResultString
    rw [List.foldl_cons]
    have h0 : ¬ (("" : String).length > 0) := by decide
    rw [if_neg h0, String.empty_append, foldl_publish cs (codeStr c) (codeStr_length_pos c),
      specRender_cons cs c h]

/-- C1: for every sequence of trouble codes returned by
`reader.getCodes()`, the result string published by `publishCodes` as
the `codes/result` event renders each code as its category letter
followed by its numeric value as four uppercase hexadecimal digits
followed by a status suffix (`s` stored, `p` pending, `c` cleared),
joins consecutive codes with a single comma and no trailing separator,
and renders the empty sequence as the empty string; in particular the
codes P0415 stored, P0010 pending, U0300 cleared render as
`P0415s,P0010p,U0300c`. -/
theorem publishCodes_renders_per_spec :
    (∀ codes : List DTC, (∀ c ∈ codes, c.code < 65536) →
        publishCodes true false codes = [Event.codesResult (publishResultString codes)] ∧
        publishResultString codes = specRender codes) ∧
    publishResultString exampleCodes = "P0415s,P0010p,U0300c" := by
  constructor
  · intro codes h
    exact ⟨rfl, publishResultString_eq_specRender codes h⟩
  · decide

/-- Witness for C1: the rendering theorem applied to the scenario
codes. -/
theorem publishCodes_renders_per_spec_witness :
    publishResultString exampleCodes = specRender exampleCodes :=
  (publishCodes_renders_per_spec.1 exampleCodes (by decide)).2

/-- C2: whenever `reader.getError()` is true after a completed read, the
result set `reader.getCodes()` is empty, and the host publishes the
`codes/error` event and returns without publishing any `codes/result`
event (the engine side of the invariant is modelled from the spec). -/
theorem error_implies_empty_codes_and_error_event :
    ∀ r : CodeReader, r.getError = true →
      r.getCodes = [] ∧
      publishCodes true r.getError r.getCodes = [Event.codesError] ∧
      (∀ (connected : Bool) (s : String),
        Event.codesResult s ∉ publishCodes connected r.getError r.getCodes) := by
  intro r h
  obtain ⟨st, codes⟩ := r
  cases st
  case Error =>
    refine ⟨rfl, rfl, ?_⟩
    intro connected s
    cases connected <;> simp [publishCodes, CodeReader.getError, CodeReader.getCodes]
  all_goals exact absurd h (by simp [CodeReader.getError])

/-- Witness for C2: a reader in the error state exposes an empty result
set. -/
theorem error_implies_empty_codes_and_error_event_witness :
    (CodeReader.mk ReaderState.Error [⟨'P', 1, DTCType.STORED_DTC⟩]).getCodes = [] :=
  (error_implies_empty_codes_and_error_event ⟨ReaderState.Error, [⟨'P', 1, DTCType.STORED_DTC⟩]⟩ rfl).1

/-- C7: the DTC Decoder is a deterministic pure function of the payload
and the status parameter: decoding the same payload twice with the same
status yields syntactically equal result sequences. -/
theorem decodeDTCs_deterministic :
    ∀ (s1 s2 : DTCType) (p1 p2 : List Nat), s1 = s2 → p1 = p2 →
      decodeDTCs s1 p1 = decodeDTCs s2 p2 := by
  intro s1 s2 p1 p2 hs hp
  rw [hs, hp]

/-- Witness for C7: two decodes of the same concrete payload agree. -/
theorem decodeDTCs_deterministic_witness :
    decodeDTCs DTCType.STORED_DTC [4, 21] = decodeDTCs DTCType.STORED_DTC [4, 21] :=
  decodeDTCs_deterministic DTCType.STORED_DTC DTCType.STORED_DTC [4, 21] [4, 21] rfl rfl

/-- C8: the Diagnostic Session holds at most one outstanding request:
`issue(request)` is accepted only from `Idle`, where it records the
request and moves to `RequestSent`; a second `issue` while the session
is not `Idle` is rejected and leaves the session, in particular its
outstanding request, unchanged. -/
theorem session_issue_single_outstanding :
    ∀ (s : Session) (req : DiagnosticRequest),
      (s.state = SessionState.Idle →
        (s.issue req).2 = true ∧ (s.issue req).1.state = SessionState.RequestSent ∧
        (s.issue req).1.outstanding = some req) ∧
      (s.state ≠ SessionState.Idle →
        (s.issue req).2 = false ∧ (s.issue req).1 = s) := by
  intro s req
  obtain ⟨st, out, resp⟩ := s
  cases st <;> constructor <;> intro h <;> simp_all [Session.issue]

/-- Witness for C8: issuing on a session that already sent a request is
rejected. -/
theorem session_issue_single_outstanding_witness :
    ((Session.mk SessionState.RequestSent none none).issue ⟨1, none, 0⟩).2 = false :=
  ((session_issue_single_outstanding ⟨SessionState.RequestSent, none, none⟩ ⟨1, none, 0⟩).2
    (by decide)).1

theorem readerLoop_eq_edgeRun (connected error : Bool) (codes : List DTC) :
    ∀ (ds : List Bool) (prev : Bool),
      readerLoop connected error codes prev ds = edgeRun prev ds := by
  intro ds
  induction ds with
  | nil => intro prev; rfl
  | cons d ds ih =>
    intro prev
    show (processReadingCodes connected error codes d prev).1.isSome ::
        readerLoop connected error codes (processReadingCodes connected error codes d prev).2 ds
      = (d && !prev) :: edgeRun d ds
    rw [ih]
    show (processReadingCodes connected error codes d prev).1.isSome :: edgeRun d ds
      = (d && !prev) :: edgeRun d ds
    cases hdp : (d && !prev) <;> simp [processReadingCodes, hdp]

theorem edgeRun_all_true (ds : List Bool) (h : ∀ d ∈ ds, d = true) :
    edgeRun true ds = List.replicate ds.length false := by
  induction ds with
  | nil => rfl
  | cons d ds ih =>
    have hd : d = true := h d (List.mem_cons_self d ds)
    subst hd
    show (true && !true) :: edgeRun true ds = List.replicate (ds.length + 1) false
    rw [ih (fun x hx => h x (List.mem_cons_of_mem true hx))]
    rfl

theorem edgeRun_count_le_one (prev : Bool) (ds : List Bool) (h : ∀ d ∈ ds, d = true) :
    List.count true (edgeRun prev ds) ≤ 1 ∧
      (prev = false → ds ≠ [] → List.count true (edgeRun prev ds) = 1) := by
  cases ds with
  | nil => simp [edgeRun]
  | cons d ds =>
    have hd : d = true := h d (List.mem_cons_self d ds)
    subst hd
    have ht : edgeRun true ds = List.replicate ds.length false :=
      edgeRun_all_true ds (fun x hx => h x (List.mem_cons_of_mem true hx))
    cases prev <;> simp [edgeRun, ht, List.count_cons, List.count_replicate]

/-- C3: over every sequence of loop iterations, `processReadingCodes`
invokes `publishCodes` in an iteration if and only if the polled value
of `reader.done()` is true and the value observed in the previous
iteration was false (rising edge detection through the one step memory
`previouslyDone`), so a completed read run is reported exactly once and
never re-reported while `done()` stays true. -/
theorem processReadingCodes_edge_triggered :
    (∀ (connected error : Bool) (codes : List DTC) (d prev : Bool),
        (processReadingCodes connected error codes d prev).1.isSome = (d && !prev) ∧
        (processReadingCodes connected error codes d prev).2 = d) ∧
    (∀ (connected error : Bool) (codes : List DTC) (prev : Bool) (ds : List Bool),
        readerLoop connected error codes prev ds = edgeRun prev ds) ∧
    (∀ (prev : Bool) (ds : List Bool), (∀ d ∈ ds, d = true) →
        List.count true (edgeRun prev ds) ≤ 1 ∧
        (prev = false → ds ≠ [] → List.count true (edgeRun prev ds) = 1)) := by
  refine ⟨?_, ?_, ?_⟩
  · intro connected error codes d prev
    refine ⟨?_, rfl⟩
    cases hdp : (d && !prev) <;> simp [processReadingCodes, hdp]
  · intro connected error codes prev ds
    exact readerLoop_eq_edgeRun connected error codes ds prev
  · intro prev ds h
    exact edgeRun_count_le_one prev ds h

/-- Witness for C3: a run whose `done()` flag rises once and then stays
true publishes exactly once. -/
theorem processReadingCodes_edge_triggered_witness :
    List.count true (edgeRun false [true, true, true]) = 1 :=
  (processReadingCodes_edge_triggered.2.2 false [true, true, true] (by decide)).2 rfl (by decide)

theorem clearerLoop_all_true (connected clearerError : Bool) :
    ∀ (ds : List Bool), (∀ d ∈ ds, d = true) →
      clearerLoop connected clearerError true ds = List.replicate ds.length [] := by
  intro ds
  induction ds with
  | nil => intro _; rfl
  | cons d ds ih =>
    intro h
    have hd : d = true := h d (List.mem_cons_self d ds)
    subst hd
    show (processClearingCodes connected true clearerError true).1 ::
        clearerLoop connected clearerError (processClearingCodes connected true clearerError true).2 ds
      = List.replicate (ds.length + 1) []
    have e : (processClearingCodes connected true clearerError true).2 = true := rfl
    rw [e, ih (fun x hx => h x (List.mem_cons_of_mem true hx))]
    rfl

/-- C10: both `static bool previouslyDone` flags are initialized to
true, so no `codes/result`, `codes/cleared` or `codes/error` event is
published during the first loop iterations after boot, even if
`reader.done()` or `clearer.done()` is already true before any `start()`
was called. -/
theorem boot_publishes_nothing :
    initialPreviouslyDone = true ∧
    (∀ (connected error : Bool) (codes : List DTC) (d : Bool),
        (processReadingCodes connected error codes d initialPreviouslyDone).1 = none) ∧
    (∀ (connected clearerError d : Bool),
        (processClearingCodes connected d clearerError initialPreviouslyDone).1 = []) ∧
    (∀ (connected error : Bool) (codes : List DTC) (ds : List Bool), (∀ d ∈ ds, d = true) →
        readerLoop connected error codes initialPreviouslyDone ds =
          List.replicate ds.length false) ∧
    (∀ (connected clearerError : Bool) (ds : List Bool), (∀ d ∈ ds, d = true) →
        clearerLoop connected clearerError initialPreviouslyDone ds =
          List.replicate ds.length ([] : List Event)) := by
  refine ⟨rfl, ?_, ?_, ?_, ?_⟩
  · intro connected error codes d
    cases d <;> rfl
  · intro connected clearerError d
    cases d <;> rfl
  · intro connected error codes ds h
    rw [readerLoop_eq_edgeRun connected error codes ds initialPreviouslyDone]
    exact edgeRun_all_true ds h
  · intro connected clearerError ds h
    exact clearerLoop_all_true connected clearerError ds h

/-- Witness for C10: with the boot value of `previouslyDone`, two
iterations with `done()` already true publish nothing. -/
theorem boot_publishes_nothing_witness :
    readerLoop true false [] initialPreviouslyDone [true, true] = List.replicate 2 false :=
  boot_publishes_nothing.2.2.2.1 true false [] [true, true] (by decide)

/-- C4: a positive response to the clear request yields `done()` true
with `getError()` false (and the host then publishes `codes/cleared`),
while a negative response or a timeout yields `done()` true with
`getError()` true (and the host then publishes `codes/error`); from the
requested state those are the only outcomes (engine modelled from the
spec). -/
theorem clearer_terminal_outcomes :
    (∀ (c : CodeClearer) (p : List Nat), c.state = ClearerState.ClearRequested →
        ((c.process (SessionOutcome.complete p false)).done = true ∧
          (c.process (SessionOutcome.complete p false)).getError = false) ∧
        ((c.process (SessionOutcome.complete p true)).done = true ∧
          (c.process (SessionOutcome.complete p true)).getError = true) ∧
        ((c.process SessionOutcome.failed).done = true ∧
          (c.process SessionOutcome.failed).getError = true)) ∧
    (∀ (c : CodeClearer) (o : SessionOutcome), c.state = ClearerState.ClearRequested →
        (c.process o).state = ClearerState.ClearRequested ∨
        (c.process o).state = ClearerState.Done ∨
        (c.process o).state = ClearerState.Error) ∧
    (processClearingCodes true true false false).1 = [Event.codesCleared] ∧
    (processClearingCodes true true true false).1 = [Event.codesError] := by
  refine ⟨?_, ?_, rfl, rfl⟩
  · intro c p h
    obtain ⟨st⟩ := c
    cases st
    case ClearRequested => exact ⟨⟨rfl, rfl⟩, ⟨rfl, rfl⟩, ⟨rfl, rfl⟩⟩
    all_goals exact absurd h (by decide)
  · intro c o h
    obtain ⟨st⟩ := c
    cases st
    case ClearRequested =>
      cases o with
      | pending => exact Or.inl rfl
      | complete p n => cases n
                        · exact Or.inr (Or.inl rfl)
                        · exact Or.inr (Or.inr rfl)
      | failed => exact Or.inr (Or.inr rfl)
    all_goals exact absurd h (by decide)

/-- Witness for C4: a timeout of the clear request reports an error. -/
theorem clearer_terminal_outcomes_witness :
    ((CodeClearer.mk ClearerState.ClearRequested).process SessionOutcome.failed).getError = true :=
  ((clearer_terminal_outcomes.1 ⟨ClearerState.ClearRequested⟩ [] rfl).2.2).2

/-- C5: the three read phases execute strictly in the order stored,
pending, cleared; a pending session outcome keeps the current phase; a
session failure in any read phase moves the reader to `Error` with the
partial results discarded; terminal states absorb further `process()`
calls, so remaining phases are never attempted after a failure; and a
fully successful run ends in `Done` with the decoded codes accumulated
in phase order (engine modelled from the spec). -/
theorem reader_phase_order :
    (∀ (r : CodeReader) (o : SessionOutcome), r.state = ReaderState.ReadingStored →
        (r.process o).state = ReaderState.ReadingStored ∨
        (r.process o).state = ReaderState.ReadingPending ∨
        (r.process o).state = ReaderState.Error) ∧
    (∀ (r : CodeReader) (o : SessionOutcome), r.state = ReaderState.ReadingPending →
        (r.process o).state = ReaderState.ReadingPending ∨
        (r.process o).state = ReaderState.ReadingCleared ∨
        (r.process o).state = ReaderState.Error) ∧
    (∀ (r : CodeReader) (o : SessionOutcome), r.state = ReaderState.ReadingCleared →
        (r.process o).state = ReaderState.ReadingCleared ∨
        (r.process o).state = ReaderState.Done ∨
        (r.process o).state = ReaderState.Error) ∧
    (∀ r : CodeReader, r.process SessionOutcome.pending = r) ∧
    (∀ (r : CodeReader) (o : SessionOutcome), r.done = true → r.process o = r) ∧
    (∀ r : CodeReader,
        (r.state = ReaderState.ReadingStored ∨ r.state = ReaderState.ReadingPending ∨
          r.state = ReaderState.ReadingCleared) →
        (r.process SessionOutcome.failed).state = ReaderState.Error ∧
        (r.process SessionOutcome.failed).getError = true ∧
        (r.process SessionOutcome.failed).getCodes = []) ∧
    (∀ (r : CodeReader) (p1 p2 p3 : List Nat),
        ((((r.start).process (SessionOutcome.complete p1 false)).process
            (SessionOutcome.complete p2 false)).process (SessionOutcome.complete p3 false)).state
          = ReaderState.Done ∧
        ((((r.start).process (SessionOutcome.complete p1 false)).process
            (SessionOutcome.complete p2 false)).process (SessionOutcome.complete p3 false)).getCodes
          = decodeDTCs DTCType.STORED_DTC p1 ++ decodeDTCs DTCType.PENDING_DTC p2 ++
              decodeDTCs DTCType.CLEARED_DTC p3) := by
  refine ⟨?_, ?_, ?_, ?_, ?_, ?_, ?_⟩
  · intro r o h
    obtain ⟨st, codes⟩ := r
    cases st
    case ReadingStored =>
      cases o with
      | pending => exact Or.inl rfl
      | complete p n => exact Or.inr (Or.inl rfl)
      | failed => exact Or.inr (Or.inr rfl)
    all_goals exact absurd h (by simp)
  · intro r o h
    obtain ⟨st, codes⟩ := r
    cases st
    case ReadingPending =>
      cases o with
      | pending => exact Or.inl rfl
      | complete p n => exact Or.inr (Or.inl rfl)
      | failed => exact Or.inr (Or.inr rfl)
    all_goals exact absurd h (by simp)
  · intro r o h
    obtain ⟨st, codes⟩ := r
    cases st
    case ReadingCleared =>
      cases o with
      | pending => exact Or.inl rfl
      | complete p n => exact Or.inr (Or.inl rfl)
      | failed => exact Or.inr (Or.inr rfl)
    all_goals exact absurd h (by simp)
  · intro r
    obtain ⟨st, codes⟩ := r
    cases st <;> rfl
  · intro r o h
    obtain ⟨st, codes⟩ := r
    cases st
    case Done => rfl
    case Error => rfl
    all_goals exact absurd h (by simp [CodeReader.done])
  · intro r h
    obtain ⟨st, codes⟩ := r
    cases st
    case ReadingStored => exact ⟨rfl, rfl, rfl⟩
    case ReadingPending => exact ⟨rfl, rfl, rfl⟩
    case ReadingCleared => exact ⟨rfl, rfl, rfl⟩
    all_goals
      rcases h with h | h | h <;> exact absurd h (by simp)
  · intro r p1 p2 p3
    refine ⟨rfl, ?_⟩
    show (([] ++ decodeDTCs DTCType.STORED_DTC p1) ++ decodeDTCs DTCType.PENDING_DTC p2) ++
        decodeDTCs DTCType.CLEARED_DTC p3 = _
    simp [List.append_assoc]

/-- Witness for C5: a fully successful run over the scenario payloads
accumulates the decoded codes in phase order. -/
theorem reader_phase_order_witness :
    ((((CodeReader.mk ReaderState.Idle []).start.process
        (SessionOutcome.complete [4, 21] false)).process
        (SessionOutcome.complete [0, 16] false)).process
        (SessionOutcome.complete [195, 0] false)).getCodes
      = decodeDTCs DTCType.STORED_DTC [4, 21] ++ decodeDTCs DTCType.PENDING_DTC [0, 16] ++
          decodeDTCs DTCType.CLEARED_DTC [195, 0] :=
  (reader_phase_order.2.2.2.2.2.2 ⟨ReaderState.Idle, []⟩ [4, 21] [0, 16] [195, 0]).2

/-- C9: `processSerial` starts the code reader exactly when the byte
read from the serial port is `r` and starts the code clearer exactly
when it is `c`; any other value, including the no-data sentinel `-1`,
starts neither operation and leaves both reader and clearer
untouched. -/
theorem processSerial_dispatch :
    ∀ (b : Int) (r : CodeReader) (c : CodeClearer),
      (processSerial b = SerialAction.startReader ↔ b = (Char.toNat 'r' : Int)) ∧
      (processSerial b = SerialAction.startClearer ↔ b = (Char.toNat 'c' : Int)) ∧
      (b = (Char.toNat 'r' : Int) → applySerial b r c = (CodeReader.start r, c)) ∧
      (b = (Char.toNat 'c' : Int) → applySerial b r c = (r, CodeClearer.start c)) ∧
      (b ≠ (Char.toNat 'r' : Int) → b ≠ (Char.toNat 'c' : Int) → applySerial b r c = (r, c)) ∧
      applySerial (-1) r c = (r, c) := by
  intro b r c
  have hr : (Char.toNat 'r' : Int) = 114 := by decide
  have hc : (Char.toNat 'c' : Int) = 99 := by decide
  rw [hr, hc]
  by_cases h1 : b = 114
  · subst h1
    refine ⟨?_, ?_, ?_, ?_, ?_, ?_⟩ <;> simp [processSerial, applySerial, hr, hc]
  · by_cases h2 : b = 99
    · subst h2
      refine ⟨?_, ?_, ?_, ?_, ?_, ?_⟩ <;> simp [processSerial, applySerial, hr, hc]
    · refine ⟨?_, ?_, ?_, ?_, ?_, ?_⟩ <;>
        simp [processSerial, applySerial, hr, hc, h1, h2]

/-- Witness for C9: the byte `r` starts the code reader. -/
theorem processSerial_dispatch_witness :
    applySerial 114 ⟨ReaderState.Idle, []⟩ ⟨ClearerState.Idle⟩ =
      (CodeReader.start ⟨ReaderState.Idle, []⟩, ⟨ClearerState.Idle⟩) :=
  (processSerial_dispatch 114 ⟨ReaderState.Idle, []⟩ ⟨ClearerState.Idle⟩).2.2.1 (by decide)

theorem categoryLetter_eq_P (bits : Nat) (h : categoryLetter bits = 'P') : bits % 4 = 0 := by
  unfold categoryLetter at h
  split_ifs at h with h1 h2 h3
  · exact h1
  all_goals exact absurd h (by decide)

theorem decodeDTCs_no_zero_record (status : DTCType) :
    ∀ (n : Nat) (payload : List Nat), payload.length ≤ n →
      ∀ c ∈ decodeDTCs status payload, ¬(c.letter = 'P' ∧ c.code = 0) := by
  intro n
  induction n with
  | zero =>
    intro payload hlen c hc
    have hp : payload = [] := List.eq_nil_of_length_eq_zero (by omega)
    subst hp
    rw [show decodeDTCs status [] = [] from rfl] at hc
    simp at hc
  | succ n ih =>
    intro payload hlen c hc
    rcases payload with _ | ⟨b1, _ | ⟨b2, rest⟩⟩
    · rw [show decodeDTCs status [] = [] from rfl] at hc
      simp at hc
    · rw [show decodeDTCs status [b1] = [] from rfl] at hc
      simp at hc
    · rw [show decodeDTCs status (b1 :: b2 :: rest) =
          (if b1 % 256 * 256 + b2 % 256 = 0 then decodeDTCs status rest
           else ⟨categoryLetter ((b1 % 256 * 256 + b2 % 256) / 16384),
             (b1 % 256 * 256 + b2 % 256) % 16384, status⟩ :: decodeDTCs status rest)
          from rfl] at hc
      have hlen2 : rest.length ≤ n := by
        simp at hlen
        omega
      by_cases hz : b1 % 256 * 256 + b2 % 256 = 0
      · rw [if_pos hz] at hc
        exact ih rest hlen2 c hc
      · rw [if_neg hz] at hc
        rcases List.mem_cons.1 hc with he | hm
        · subst he
          rintro ⟨hl, hcode⟩
          have hb : (b1 % 256 * 256 + b2 % 256) / 16384 % 4 = 0 := categoryLetter_eq_P _ hl
          have hcode2 : (b1 % 256 * 256 + b2 % 256) % 16384 = 0 := hcode
          omega
        · exact ih rest hlen2 c hm

theorem decodeDTCs_ignores_trailing_byte (status : DTCType) :
    ∀ (n : Nat) (payload : List Nat), payload.length ≤ n → payload.length % 2 = 0 →
      ∀ b, decodeDTCs status (payload ++ [b]) = decodeDTCs status payload := by
  intro n
  induction n with
  | zero =>
    intro payload hlen _ b
    have hp : payload = [] := List.eq_nil_of_length_eq_zero (by omega)
    subst hp
    rfl
  | succ n ih =>
    intro payload hlen hpar b
    rcases payload with _ | ⟨b1, _ | ⟨b2, rest⟩⟩
    · rfl
    · simp at hpar
    · have hlen2 : rest.length ≤ n := by
        simp at hlen
        omega
      have hpar2 : rest.length % 2 = 0 := by
        simp at hpar
        omega
      show decodeDTCs status (b1 :: b2 :: (rest ++ [b])) = decodeDTCs status (b1 :: b2 :: rest)
      rw [show decodeDTCs status (b1 :: b2 :: (rest ++ [b])) =
          (if b1 % 256 * 256 + b2 % 256 = 0 then decodeDTCs status (rest ++ [b])
           else ⟨categoryLetter ((b1 % 256 * 256 + b2 % 256) / 16384),
             (b1 % 256 * 256 + b2 % 256) % 16384, status⟩ :: decodeDTCs status (rest ++ [b]))
          from rfl,
        show decodeDTCs status (b1 :: b2 :: rest) =
          (if b1 % 256 * 256 + b2 % 256 = 0 then decodeDTCs status rest
           else ⟨categoryLetter ((b1 % 256 * 256 + b2 % 256) / 16384),
             (b1 % 256 * 256 + b2 % 256) % 16384, status⟩ :: decodeDTCs status rest)
          from rfl,
        ih rest hlen2 hpar2 b]

/-- C6: an all-zero record never appears as a trouble code in the
decoder output (the only record that could produce the letter `P` with
numeric value zero is the all-zero record, and it is skipped as
padding), and a truncated trailing byte is ignored rather than failing
the decode (decoder modelled from the spec). -/
theorem decodeDTCs_skips_zero_and_truncation :
    (∀ (status : DTCType) (payload : List Nat), ∀ c ∈ decodeDTCs status payload,
        ¬(c.letter = 'P' ∧ c.code = 0)) ∧
    (∀ (status : DTCType) (payload : List Nat) (b : Nat), payload.length % 2 = 0 →
        decodeDTCs status (payload ++ [b]) = decodeDTCs status payload) := by
  constructor
  · intro status payload c hc
    exact decodeDTCs_no_zero_record status payload.length payload le_rfl c hc
  · intro status payload b hpar
    exact decodeDTCs_ignores_trailing_byte status payload.length payload le_rfl hpar b

/-- Witness for C6: a dangling trailing byte after one full record is
ignored. -/
theorem decodeDTCs_skips_zero_and_truncation_witness :
    decodeDTCs DTCType.STORED_DTC ([4, 21] ++ [7]) = decodeDTCs DTCType.STORED_DTC [4, 21] :=
  decodeDTCs_skips_zero_and_truncation.2 DTCType.STORED_DTC [4, 21] 7 (by decide)

end CarloopApp
